import Mathlib

set_option maxHeartbeats 1000000

/-
  Verification development for the chat-bot orchestration core in
  `src/main.py`.  Python strings are embedded as Lean `String`
  (a `String` is a list of code points, matching Python `str`
  indexing/slicing semantics); network effects are embedded as explicit
  inputs: each provider call is represented by its observable outcome, and
  exceptions raised inside a `try` block are represented by a distinguished
  failure value, because the surrounding handler catches them all.
-/

namespace AiBot

/-- Python truthiness of a `str`: non-empty strings are truthy. -/
def pyTruthyStr (s : String) : Bool := s ≠ ""

/-- The value an image provider can return in `get_random_image`
(`BytesIO | str`): an in-memory byte buffer (always truthy in Python,
the buffer object defines no falsiness) or a URL string (truthy iff
non-empty). -/
inductive ImageVal where
  | bytes (data : List Nat)
  | url (u : String)
deriving DecidableEq

/-- Python truthiness of an image provider value. -/
def ImageVal.truthy : ImageVal → Bool
  | .bytes _ => true
  | .url u => u ≠ ""

/-- Embedding of the shared failover-ladder loop of
`generate_laddered_reply` (src/main.py lines 188-200) and
`get_random_image` (lines 146-155): for each function in the provider
list, call it inside a `try` block, return its result if truthy, and on
an exception log and continue; return the fallback when the list is
exhausted.
Each provider call is represented by its outcome: `none` models either a
raised exception (caught by the `except` clause) or an explicit `None`
return, and `some v` models a returned value `v`, which advances the
ladder when it is falsy (`if r:` fails).  The second component of the
result is the trace of outcomes actually observed, in call order, one
entry per provider invoked. -/
def ladderRun {α β : Type} (truthy : α → Bool) (emit : α → β) (fallback : β) :
    List (Option α) → β × List (Option α)
  | [] => (fallback, [])
  | some v :: rest =>
    if truthy v then (emit v, [some v])
    else ((ladderRun truthy emit fallback rest).1,
          some v :: (ladderRun truthy emit fallback rest).2)
  | none :: rest =>
    ((ladderRun truthy emit fallback rest).1,
     none :: (ladderRun truthy emit fallback rest).2)

/-- ASCII apostrophe, kept out of string literals. -/
def apostrophe : Char := Char.ofNat 39

/-- The fixed fallback reply returned by `generate_laddered_reply` when
every text provider fails (src/main.py line 200). -/
def ladderApology : String :=
  "⚠️ Sorry, I couldn" ++ String.mk [apostrophe] ++ "t generate a reply."

/-- Embedding of `generate_laddered_reply` (src/main.py lines 188-200):
the text failover ladder over `[get_openai_text, gemini-lambda]`,
here generalized over the list of provider outcomes.  Returns the reply
together with the trace of provider outcomes attempted, in order. -/
def generate_laddered_reply (outcomes : List (Option String)) :
    String × List (Option String) :=
  ladderRun pyTruthyStr id ladderApology outcomes

/-- Embedding of `get_random_image` (src/main.py lines 146-155): the
image failover ladder over
`[get_gemini_image_sdk, get_openai_image, get_replicate_image]`,
generalized over the list of provider outcomes.  Returns `none` (the
Python `None` fallthrough at line 155) when every provider fails. -/
def get_random_image (outcomes : List (Option ImageVal)) :
    Option ImageVal × List (Option ImageVal) :=
  ladderRun ImageVal.truthy some none outcomes

/-- Embedding of Python `range(start, stop, step)` for a non-negative
ascending range, as used by the list comprehension in `handle_message`
(src/main.py line 234).  (Python raises on `step = 0`; this function is
only ever used with the positive literal `4000`, and the claims assume a
positive segment limit.) -/
def rangeStep (stop step start : Nat) : List Nat :=
  if _h : 0 < step ∧ start < stop then start :: rangeStep stop step (start + step)
  else []
termination_by stop - start
decreasing_by omega

/-- Embedding of the Python string slice `s[a:b]` (for `a ≤ b`;
Python slicing clamps out-of-range bounds, as `drop`/`take` do). -/
def pySlice (s : String) (a b : Nat) : String :=
  String.mk ((s.data.drop a).take (b - a))

/-- Embedding of the chunk split in `handle_message` (src/main.py
line 234): `[ai_reply[i:i + chunk_size] for i in range(0, len(ai_reply),
chunk_size)]`, generalized over the chunk size. -/
def pythonChunks (s : String) (size : Nat) : List String :=
  (rangeStep s.length size 0).map (fun i => pySlice s i (i + size))

/-- The JSON payload returned by one Replicate status poll
(`requests.get(prediction_url, ...).json()` in src/main.py line 136):
a status string and the `output` array of result URLs. -/
structure ReplicatePollResult where
  status : String
  output : List String
deriving DecidableEq

/-- Embedding of the polling loop of `get_replicate_image` (src/main.py
lines 135-141).  `poll i` is the outcome of the `i`-th status request
(`Except.error` models a raised exception, caught by the surrounding
handler).  The first argument is the remaining poll budget
(`for _ in range(20)`), the second the number of polls already made; the
result pairs the returned value with the total number of polls issued.
On `"succeeded"` the code returns `result["output"][0]`, whose
`IndexError` on an empty array is caught and turned into `None`, hence
`head?`; on `"failed"` it returns `None`; any other status sleeps and
polls again; an exhausted budget falls off the `for` loop and the
function returns `None`. -/
def replicatePollLoop (poll : Nat → Except String ReplicatePollResult) :
    Nat → Nat → Option String × Nat
  | 0, k => (none, k)
  | budget + 1, k =>
    match poll k with
    | .error _ => (none, k + 1)
    | .ok r =>
      if r.status = "succeeded" then (r.output.head?, k + 1)
      else if r.status = "failed" then (none, k + 1)
      else replicatePollLoop poll budget (k + 1)

/-- Embedding of `get_replicate_image` (src/main.py lines 123-144).
`submit` is the outcome of the job-submission POST together with the
response parsing `resp.json()["urls"]["get"]` (an exception anywhere is
caught and yields `None`); a submission status other than 201 returns
`None` without polling; otherwise the 20-attempt polling loop runs. -/
def get_replicate_image (submit : Except String Nat)
    (poll : Nat → Except String ReplicatePollResult) : Option String × Nat :=
  match submit with
  | .error _ => (none, 0)
  | .ok status => if status ≠ 201 then (none, 0) else replicatePollLoop poll 20 0

/-- Witness for C4: a poll stream that succeeds on attempt 3 of 20. -/
def succeedsOnThird : Nat → Except String ReplicatePollResult :=
  fun i => if i < 2 then Except.ok ⟨"starting", []⟩
           else Except.ok ⟨"succeeded", ["https://replicate.delivery/out.png"]⟩

/-- The parsed outcome of one `get_gemini_text` HTTP call (src/main.py
lines 50-63): the HTTP status code, the raw body text (used only in the
error log), and the nested lookup
`resp.json()["candidates"][0]["content"]["parts"][0]["text"]`
(`none` models a lookup that raises, which the handler catches and turns
into `None`). -/
structure GeminiTextResponse where
  status : Nat
  body : String
  parsedText : Option String
deriving DecidableEq

/-- Embedding of `get_gemini_text` (src/main.py lines 50-63).  `net i`
is the outcome of the `i`-th HTTP request the client could issue
(`Except.error` models a raised exception, caught by the handler).  The
function makes exactly one request — there is no retry loop in the
source — and the second component records the number of requests
issued.  A non-200 status logs and returns `None` immediately. -/
def get_gemini_text (net : Nat → Except String GeminiTextResponse) :
    Option String × Nat :=
  match net 0 with
  | .error _ => (none, 1)
  | .ok r => if r.status ≠ 200 then (none, 1) else (r.parsedText, 1)

/-- A network in which the first request reports a transient
model-loading condition (status 503 with a textual marker) and the next
request would succeed.  A client with transient-load retry would return
the success; the source client never issues the second request. -/
def loadingNet : Nat → Except String GeminiTextResponse :=
  fun i => if i = 0 then Except.ok ⟨503, "model is loading", none⟩
           else Except.ok ⟨200, "", some "hello"⟩

/-- One part of the Gemini SDK image response
(`response.candidates[0].content.parts` in src/main.py line 94): its
optional `inline_data` bytes. -/
structure SdkPart where
  inline_data : Option (List Nat)
deriving DecidableEq

/-- The part scan of `get_gemini_image_sdk` (src/main.py lines 94-98):
return the bytes of the first part carrying inline data, else fall
through to `None`. -/
def firstInline : List SdkPart → Option (List Nat)
  | [] => none
  | p :: rest =>
    match p.inline_data with
    | some d => some d
    | none => firstInline rest

/-- Embedding of `get_gemini_image_sdk` (src/main.py lines 87-102).
`response` is the outcome of client construction plus
`generate_content` plus the `candidates[0].content.parts` access; an
exception anywhere in the `try` block (`Except.error`) is caught and
returned as `None`. -/
def get_gemini_image_sdk (response : Except String (List SdkPart)) :
    Option (List Nat) :=
  match response with
  | .error _ => none
  | .ok parts => firstInline parts

/-- One conversation turn, `{"role": ..., "content": ...}` as appended
in `handle_message` (src/main.py lines 223 and 231). -/
structure ChatTurn where
  role : String
  content : String
deriving DecidableEq

/-- `list.append(turn)` on the stored conversation history. -/
def history_append (h : List ChatTurn) (t : ChatTurn) : List ChatTurn := h ++ [t]

/-- Embedding of the Python slice `conversation_history[-15:]`
(src/main.py line 224): the last 15 entries, or the whole list when it
is shorter. -/
def recent_context (h : List ChatTurn) : List ChatTurn := h.drop (h.length - 15)

/-- The two appends `handle_message` performs on the stored
per-conversation history for one user message (src/main.py lines 223
and 231): the user turn, then the generated assistant turn.  The stored
list is never truncated anywhere in the source. -/
def handle_message_history (h : List ChatTurn) (userText reply : String) :
    List ChatTurn :=
  history_append (history_append h ⟨"user", userText⟩) ⟨"assistant", reply⟩

/-- The stored history after `n` handled messages in one conversation,
starting from the empty history installed by `/start`. -/
def appendedHistory : Nat → List ChatTurn
  | 0 => []
  | n + 1 => handle_message_history (appendedHistory n) "hi" "ok"

/-- The per-conversation `context.user_data` state the delivery-queue
claims are about: the `"reply_chunks"` entry.  `none` models an absent
key, `some l` a present key holding the list `l`. -/
structure UserData where
  reply_chunks : Option (List String)
deriving DecidableEq

/-- Embedding of `continue_reply` (src/main.py lines 249-265): if the
`"reply_chunks"` key is present and its list truthy (non-empty), pop
the front segment and send it; otherwise do nothing.  The second
component is the segment sent, `none` when nothing is sent.  The key is
left in place in every branch — `pop(0)` mutates the list but never
removes the key, even when the list becomes empty. -/
def continue_reply (st : UserData) : UserData × Option String :=
  match st.reply_chunks with
  | some (c :: rest) => (⟨some rest⟩, some c)
  | some [] => (st, none)
  | none => (st, none)

/-- Embedding of the queue-creation branch of `handle_message`
(src/main.py lines 239-240): `reply_chunks` is assigned `chunks[1:]`
exactly when more than one chunk was produced; otherwise the state is
untouched. -/
def handle_message_enqueue (st : UserData) (formattedReply : String) : UserData :=
  if (pythonChunks formattedReply 4000).length > 1
  then ⟨some ((pythonChunks formattedReply 4000).drop 1)⟩ else st

/-- The asterisk character, kept out of literals for clarity. -/
def star : Char := Char.ofNat 42

/-- The newline character, excluded from regex `.` content. -/
def newlineChar : Char := Char.ofNat 10

/-- The backslash character inserted by the escaping pass. -/
def backslash : Char := Char.ofNat 92

/-- Non-greedy scan for the closing `**` of the bold pattern, after at
least one content character has been consumed: at each position the
closing `**` is tried first (shortest match), otherwise one more
content character (which must not be a newline, since regex `.` does
not match newlines) is consumed. -/
def scanClose : List Char → Option (List Char × List Char)
  | c1 :: c2 :: rest =>
    if c1 = star ∧ c2 = star then some ([], rest)
    else if c1 = newlineChar then none
    else (scanClose (c2 :: rest)).map (fun p => (c1 :: p.1, p.2))
  | _ => none

/-- After an opening `**`, match the non-empty non-greedy content
`(.+?)` followed by the closing `**`: the first character is forced to
be content, the rest is scanned by `scanClose`. -/
def findClose : List Char → Option (List Char × List Char)
  | [] => none
  | c :: rest =>
    if c = newlineChar then none
    else (scanClose rest).map (fun p => (c :: p.1, p.2))

/-- Find the first match of the Python regex `\*\*(.+?)\*\*` in the
text, scanning start positions left to right as the `re` engine does:
returns `(pre, content, post)` where `pre` is the text before the
match and `post` the text after it. -/
def findBold : List Char → Option (List Char × List Char × List Char)
  | [] => none
  | c1 :: rest1 =>
    match rest1 with
    | [] => none
    | c2 :: rest2 =>
      if c1 = star ∧ c2 = star then
        match findClose rest2 with
        | some p => some ([], p.1, p.2)
        | none => (findBold rest1).map (fun q => (c1 :: q.1, q.2.1, q.2.2))
      else (findBold rest1).map (fun q => (c1 :: q.1, q.2.1, q.2.2))

/-- Global substitution `re.sub(r"\*\*(.+?)\*\*", r"*\1*", text)`
(src/main.py line 38): replace each non-overlapping match in turn,
continuing after the replaced match.  The fuel argument only serves
termination: every match removes at least five characters from the
remaining text, so fuel `l.length` (as passed by
`format_for_telegram`) can never run out before `findBold` returns
`none`. -/
def boldSubFuel : Nat → List Char → List Char
  | 0, l => l
  | fuel + 1, l =>
    match findBold l with
    | none => l
    | some q => q.1 ++ star :: q.2.1 ++ star :: boldSubFuel fuel q.2.2

/-- The Telegram MarkdownV2 special characters escaped by
`format_for_telegram` (src/main.py line 41), in source order:
`_ [ ] ( ) ~ backtick > # + - = | lbrace rbrace . !`. -/
def special_chars : List Char :=
  [Char.ofNat 95, Char.ofNat 91, Char.ofNat 93, Char.ofNat 40, Char.ofNat 41,
   Char.ofNat 126, Char.ofNat 96, Char.ofNat 62, Char.ofNat 35, Char.ofNat 43,
   Char.ofNat 45, Char.ofNat 61, Char.ofNat 124, Char.ofNat 123, Char.ofNat 125,
   Char.ofNat 46, Char.ofNat 33]

/-- One escaping pass `text = text.replace(ch, "\\" + ch)`
(src/main.py line 43): every occurrence of `c` becomes backslash
followed by `c`. -/
def escapeChar (s : List Char) (c : Char) : List Char :=
  (s.map (fun x => if x = c then [backslash, c] else [x])).flatten

/-- Embedding of `format_for_telegram` (src/main.py lines 36-44): the
bold-marker substitution followed by the sequential escaping of each
special character. -/
def format_for_telegram (s : String) : String :=
  String.mk (special_chars.foldl escapeChar (boldSubFuel s.data.length s.data))

/-- The reply pipeline of `handle_message` (src/main.py lines 225-234):
the laddered reply, the redundant empty-reply guard (`if not ai_reply`),
and the Telegram formatting pass applied before chunking. -/
def handle_message_reply (outcomes : List (Option String)) : String :=
  format_for_telegram
    (if (generate_laddered_reply outcomes).1 = "" then ladderApology
     else (generate_laddered_reply outcomes).1)

/-- The chunk list `handle_message` computes from the formatted reply
(src/main.py line 234), whose first element is sent unconditionally at
line 236. -/
def handle_message_chunks (outcomes : List (Option String)) : List String :=
  pythonChunks (handle_message_reply outcomes) 4000

/-- A ladder in which every provider fails (raises, returns `None`, or
returns a falsy value) attempts every provider once, in order, and
returns the fallback. -/
lemma ladderRun_all_fail {α β : Type} (truthy : α → Bool) (emit : α → β)
    (fallback : β) (l : List (Option α))
    (h : ∀ o ∈ l, ∀ v, o = some v → truthy v = false) :
    ladderRun truthy emit fallback l = (fallback, l) := by
  induction l with
  | nil => rfl
  | cons o rest ih =>
    have hrest : ∀ o ∈ rest, ∀ v, o = some v → truthy v = false := by
      intro o ho v hv
      exact h o (List.mem_cons_of_mem _ ho) v hv
    cases o with
    | none =>
      simp only [ladderRun, ih hrest]
    | some v =>
      have hv : truthy v = false := h (some v) (List.mem_cons_self _ _) v rfl
      simp only [ladderRun, hv, Bool.false_eq_true, if_false, ih hrest]

/-- The ladder result is either the fallback or an emitted truthy value. -/
lemma ladderRun_result {α β : Type} (truthy : α → Bool) (emit : α → β)
    (fallback : β) (l : List (Option α)) :
    (ladderRun truthy emit fallback l).1 = fallback ∨
      ∃ v, truthy v = true ∧ (ladderRun truthy emit fallback l).1 = emit v := by
  induction l with
  | nil => exact Or.inl rfl
  | cons o rest ih =>
    cases o with
    | none => simpa only [ladderRun] using ih
    | some v =>
      by_cases hv : truthy v = true
      · exact Or.inr ⟨v, hv, by simp only [ladderRun, hv, if_true]⟩
      · simpa only [ladderRun, hv, if_false] using ih

/-- C1: for every non-empty provider list, both failover ladders
(`generate_laddered_reply` for text, `get_random_image` for images)
return the first provider's result when it succeeds, with an attempt
trace containing only that first provider — later providers are never
invoked; and a failing first provider advances the ladder to the rest of
the list. -/
theorem C1_first_success_early_exit (v : String) (rest : List (Option String))
    (hv : pyTruthyStr v = true)
    (w : ImageVal) (irest : List (Option ImageVal))
    (hw : ImageVal.truthy w = true)
    (rest2 : List (Option String)) :
    generate_laddered_reply (some v :: rest) = (v, [some v]) ∧
    get_random_image (some w :: irest) = (some w, [some w]) ∧
    generate_laddered_reply (none :: rest2) =
      ((generate_laddered_reply rest2).1,
        none :: (generate_laddered_reply rest2).2) := by
  refine ⟨?_, ?_, ?_⟩
  · simp only [generate_laddered_reply, ladderRun, hv, if_true, id]
  · simp only [get_random_image, ladderRun, hw, if_true]
  · rfl

/-- Witness for C1 at concrete inputs. -/
theorem C1_first_success_early_exit_witness :
    generate_laddered_reply [some "hi there", none] = ("hi there", [some "hi there"]) ∧
    get_random_image [some (ImageVal.url "u"), none] =
      (some (ImageVal.url "u"), [some (ImageVal.url "u")]) := by
  have h := C1_first_success_early_exit "hi there" [none] (by decide)
    (ImageVal.url "u") [none] (by decide) []
  exact ⟨h.1, h.2.1⟩

/-- C2: when every provider fails (raises, returns `None`, or returns a
falsy value), each ladder attempts every provider exactly once, in list
order (the attempt trace is the entire outcome list), and returns the
single synthetic exhaustion value of its modality: the fixed apology
string for text, `none` for images. -/
theorem C2_exhaustion (outcomes : List (Option String))
    (iouts : List (Option ImageVal))
    (ht : ∀ o ∈ outcomes, ∀ v, o = some v → pyTruthyStr v = false)
    (hi : ∀ o ∈ iouts, ∀ v, o = some v → ImageVal.truthy v = false) :
    generate_laddered_reply outcomes = (ladderApology, outcomes) ∧
    get_random_image iouts = (none, iouts) := by
  exact ⟨ladderRun_all_fail _ _ _ _ ht, ladderRun_all_fail _ _ _ _ hi⟩

/-- Witness for C2 at concrete inputs: one raising provider and one
falsy-returning provider per modality. -/
theorem C2_exhaustion_witness :
    generate_laddered_reply [none, some ""] = (ladderApology, [none, some ""]) ∧
    get_random_image [none, some (ImageVal.url "")] =
      (none, [none, some (ImageVal.url "")]) := by
  refine C2_exhaustion [none, some ""] [none, some (ImageVal.url "")] ?_ ?_
  · intro o ho v hv
    fin_cases ho
    · cases hv
    · cases hv
      decide
  · intro o ho v hv
    fin_cases ho
    · cases hv
    · cases hv
      decide

lemma rangeStep_pos (stop step start : Nat) (h1 : 0 < step) (h2 : start < stop) :
    rangeStep stop step start = start :: rangeStep stop step (start + step) := by
  rw [rangeStep, dif_pos ⟨h1, h2⟩]

lemma rangeStep_neg (stop step start : Nat) (h : ¬(0 < step ∧ start < stop)) :
    rangeStep stop step start = [] := by
  rw [rangeStep, dif_neg h]

lemma pythonChunks_eq (s : String) (size : Nat) :
    pythonChunks s size =
      ((rangeStep s.data.length size 0).map
        (fun i => (s.data.drop i).take size)).map String.mk := by
  unfold pythonChunks pySlice
  rw [List.map_map]
  show List.map (fun i => String.mk (List.take (i + size - i) (List.drop i s.data)))
      (rangeStep s.data.length size 0) = _
  congr 1
  funext i
  rw [Nat.add_sub_cancel_left]
  rfl

lemma join_map_mk (L : List (List Char)) :
    String.join (L.map String.mk) = String.mk L.flatten := by
  suffices h : ∀ acc : List Char,
      (L.map String.mk).foldl (fun a b => a ++ b) (String.mk acc) =
        String.mk (acc ++ L.flatten) by
    have := h []
    simpa [String.join] using this
  induction L with
  | nil => intro acc; simp
  | cons a t ih =>
    intro acc
    simp only [List.map_cons, List.foldl_cons]
    have hmk : String.mk acc ++ String.mk a = String.mk (acc ++ a) := rfl
    rw [hmk, ih]
    simp

lemma rangeStep_chunks_flatten (l : List Char) (size : Nat) (hsz : 0 < size) :
    ∀ (k start : Nat), l.length - start ≤ k →
      ((rangeStep l.length size start).map (fun i => (l.drop i).take size)).flatten
        = l.drop start := by
  intro k
  induction k with
  | zero =>
    intro start h
    rw [rangeStep_neg _ _ _ (by omega)]
    simp [List.drop_eq_nil_of_le (by omega : l.length ≤ start)]
  | succ k ih =>
    intro start h
    by_cases hlt : start < l.length
    · rw [rangeStep_pos _ _ _ hsz hlt]
      simp only [List.map_cons, List.flatten_cons]
      rw [ih (start + size) (by omega)]
      have hdd : l.drop (start + size) = (l.drop start).drop size := by
        rw [List.drop_drop]
      rw [hdd, List.take_append_drop]
    · rw [rangeStep_neg _ _ _ (by omega)]
      simp [List.drop_eq_nil_of_le (by omega : l.length ≤ start)]

lemma rangeStep_length (n size : Nat) (hsz : 0 < size) :
    ∀ (k start : Nat), n - start ≤ k →
      (rangeStep n size start).length = (n - start + size - 1) / size := by
  intro k
  induction k with
  | zero =>
    intro start h
    rw [rangeStep_neg _ _ _ (by omega)]
    have h0 : n - start = 0 := by omega
    simp only [List.length_nil]
    rw [h0, show 0 + size - 1 = size - 1 from by omega,
      Nat.div_eq_of_lt (by omega : size - 1 < size)]
  | succ k ih =>
    intro start h
    by_cases hlt : start < n
    · rw [rangeStep_pos _ _ _ hsz hlt]
      simp only [List.length_cons]
      rw [ih (start + size) (by omega)]
      have hm : 1 ≤ n - start := by omega
      have h1 : n - (start + size) = n - start - size := by omega
      rw [h1]
      have h2 : n - start + size - 1 = (n - start - 1) + size := by omega
      have h3 : (n - start - size + size - 1) / size = (n - start - 1) / size := by
        by_cases hms : size ≤ n - start
        · have he : n - start - size + size - 1 = n - start - 1 := by omega
          rw [he]
        · have ha : n - start - size + size - 1 = size - 1 := by omega
          rw [ha, Nat.div_eq_of_lt (by omega), Nat.div_eq_of_lt (by omega)]
      rw [h3, h2, Nat.add_div_right _ hsz]
    · rw [rangeStep_neg _ _ _ (by omega)]
      have h0 : n - start = 0 := by omega
      simp only [List.length_nil]
      rw [h0, show 0 + size - 1 = size - 1 from by omega,
        Nat.div_eq_of_lt (by omega : size - 1 < size)]

lemma mem_dropLast_cons {α : Type} {c a : α} {t : List α}
    (h : c ∈ (a :: t).dropLast) : (c = a ∧ t ≠ []) ∨ c ∈ t.dropLast := by
  cases t with
  | nil => simp at h
  | cons b t2 =>
    rw [show (a :: b :: t2).dropLast = a :: (b :: t2).dropLast from rfl] at h
    rcases List.mem_cons.mp h with h | h
    · exact Or.inl ⟨h, by simp⟩
    · exact Or.inr h

lemma rangeStep_chunks_dropLast (l : List Char) (size : Nat) (hsz : 0 < size) :
    ∀ (k start : Nat), l.length - start ≤ k →
      ∀ c ∈ ((rangeStep l.length size start).map
          (fun i => (l.drop i).take size)).dropLast, c.length = size := by
  intro k
  induction k with
  | zero =>
    intro start h c hc
    rw [rangeStep_neg _ _ _ (by omega)] at hc
    simp at hc
  | succ k ih =>
    intro start h c hc
    by_cases hlt : start < l.length
    · rw [rangeStep_pos _ _ _ hsz hlt, List.map_cons] at hc
      rcases mem_dropLast_cons hc with ⟨hceq, hne⟩ | hmem
      · subst hceq
        have hlen : start + size < l.length := by
          by_contra hge
          exact hne (by rw [rangeStep_neg _ _ _ (by omega)]; rfl)
        rw [List.length_take, List.length_drop]
        omega
      · exact ih (start + size) (by omega) c hmem
    · rw [rangeStep_neg _ _ _ (by omega)] at hc
      simp at hc

/-- C3: the chunk split in `handle_message` is exact: the concatenation
of all chunks is the input text, the number of chunks is
`ceil(len / size)`, and every chunk except possibly the last has length
exactly `size`. -/
theorem C3_chunk_split (s : String) (size : Nat) (hsz : 0 < size) :
    String.join (pythonChunks s size) = s ∧
    (pythonChunks s size).length = (s.length + size - 1) / size ∧
    ∀ c ∈ (pythonChunks s size).dropLast, c.length = size := by
  refine ⟨?_, ?_, ?_⟩
  · rw [pythonChunks_eq, join_map_mk,
      rangeStep_chunks_flatten s.data size hsz s.data.length 0 (by omega)]
    rw [List.drop_zero]
  · unfold pythonChunks
    rw [List.length_map]
    have h := rangeStep_length s.length size hsz s.length 0 (by omega)
    simpa using h
  · intro c hc
    rw [pythonChunks_eq, ← List.map_dropLast] at hc
    rcases List.mem_map.mp hc with ⟨d, hd, hdc⟩
    have hlen := rangeStep_chunks_dropLast s.data size hsz s.data.length 0
      (by omega) d hd
    rw [← hdc]
    simpa using hlen

/-- Witness for C3: the 9000/4000 scenario shape at small scale
(text of length 9, segment limit 4). -/
theorem C3_chunk_split_witness :
    String.join (pythonChunks "abcdefghi" 4) = "abcdefghi" ∧
    (pythonChunks "abcdefghi" 4).length = 3 ∧
    ∀ c ∈ (pythonChunks "abcdefghi" 4).dropLast, c.length = 4 := by
  have h := C3_chunk_split "abcdefghi" 4 (by decide)
  refine ⟨h.1, ?_, h.2.2⟩
  rw [h.2.1]
  decide

/-- Polls that return a non-terminal status are consumed one at a time:
`j` consecutive pending polls advance the loop by `j` attempts. -/
lemma replicatePollLoop_pending (poll : Nat → Except String ReplicatePollResult) :
    ∀ (j budget k : Nat), j ≤ budget →
      (∀ i, i < j → ∃ p, poll (k + i) = Except.ok p ∧
        p.status ≠ "succeeded" ∧ p.status ≠ "failed") →
      replicatePollLoop poll budget k = replicatePollLoop poll (budget - j) (k + j) := by
  intro j
  induction j with
  | zero =>
    intro budget k _ _
    simp
  | succ j ih =>
    intro budget k hj hpend
    obtain ⟨p, hp, hps, hpf⟩ := hpend 0 (by omega)
    rw [show k + 0 = k from rfl] at hp
    cases budget with
    | zero => omega
    | succ b =>
      have hstep : replicatePollLoop poll (b + 1) k = replicatePollLoop poll b (k + 1) := by
        simp only [replicatePollLoop, hp]
        rw [if_neg hps, if_neg hpf]
      rw [hstep]
      have e1 : b + 1 - (j + 1) = b - j := by omega
      have e2 : k + (j + 1) = k + 1 + j := by omega
      rw [e1, e2]
      refine ih b (k + 1) (by omega) ?_
      intro i hi
      have hs := hpend (i + 1) (by omega)
      simpa [show k + (i + 1) = k + 1 + i from by omega] using hs

/-- C4: the AsyncPolled Replicate client polls up to 20 times after a
successful (201) submission; a `succeeded` status on poll attempt
`k + 1 ≤ 20` returns the first output of that attempt's payload having
made exactly `k + 1` polls (no further polling); a `failed` status
returns a failure after exactly `k + 1` polls; 20 non-terminal polls
exhaust the budget and return a failure after exactly 20 polls. -/
theorem C4_replicate_polling (poll : Nat → Except String ReplicatePollResult)
    (k : Nat) (r : ReplicatePollResult) (out : String) (outs : List String)
    (hk : k < 20)
    (hpend : ∀ i, i < k → ∃ p, poll i = Except.ok p ∧
      p.status ≠ "succeeded" ∧ p.status ≠ "failed")
    (hr : poll k = Except.ok r) :
    (r.status = "succeeded" → r.output = out :: outs →
      get_replicate_image (Except.ok 201) poll = (some out, k + 1)) ∧
    (r.status = "failed" →
      get_replicate_image (Except.ok 201) poll = (none, k + 1)) ∧
    ((∀ i, i < 20 → ∃ p, poll i = Except.ok p ∧
        p.status ≠ "succeeded" ∧ p.status ≠ "failed") →
      get_replicate_image (Except.ok 201) poll = (none, 20)) := by
  have hbase : get_replicate_image (Except.ok 201) poll = replicatePollLoop poll 20 0 := by
    simp [get_replicate_image]
  have hskip := replicatePollLoop_pending poll k 20 0 (by omega)
    (by simpa using hpend)
  rw [Nat.zero_add] at hskip
  obtain ⟨b, hb⟩ : ∃ b, 20 - k = b + 1 := ⟨20 - k - 1, by omega⟩
  refine ⟨?_, ?_, ?_⟩
  · intro hs hout
    rw [hbase, hskip, hb]
    simp only [replicatePollLoop, hr]
    rw [if_pos hs, hout]
    rfl
  · intro hf
    rw [hbase, hskip, hb]
    simp only [replicatePollLoop, hr]
    rw [if_neg (by rw [hf]; decide), if_pos hf]
  · intro hfull
    have hskip20 := replicatePollLoop_pending poll 20 20 0 (by omega)
      (by simpa using hfull)
    rw [Nat.zero_add] at hskip20
    rw [hbase, hskip20]
    rfl

/-- Witness for C4 at the spec scenario: success on attempt 3 of the
20-attempt budget, with exactly 3 polls issued. -/
theorem C4_replicate_polling_witness :
    get_replicate_image (Except.ok 201) succeedsOnThird =
      (some "https://replicate.delivery/out.png", 3) := by
  have h := C4_replicate_polling succeedsOnThird 2
    ⟨"succeeded", ["https://replicate.delivery/out.png"]⟩
    "https://replicate.delivery/out.png" [] (by omega)
    (by
      intro i hi
      refine ⟨⟨"starting", []⟩, ?_, by decide, by decide⟩
      simp [succeedsOnThird, hi])
    (by simp [succeedsOnThird])
  exact h.1 rfl rfl

/-- C6 counterexample: on a transient model-loading signal (status 503
plus the textual marker) `get_gemini_text` issues exactly one HTTP
request and returns a failure immediately — it never retries, even
though a single retry on this network would have succeeded.  This
refutes the claimed retry-with-linear-backoff behavior. -/
theorem C6_counterexample :
    get_gemini_text loadingNet = (none, 1) ∧
    loadingNet 0 = Except.ok ⟨503, "model is loading", none⟩ ∧
    loadingNet 1 = Except.ok ⟨200, "", some "hello"⟩ :=
  ⟨rfl, rfl, rfl⟩

/-- C6 amended: no provider client implements a transient-load retry.
`get_gemini_text` issues exactly one HTTP request for every network
behavior and returns a failure on any non-200 status (including a
model-loading signal) or on an exception; `get_replicate_image` returns
a failure immediately on any non-201 submission status, without
retrying the submission. -/
theorem C6_amended_no_retry (net : Nat → Except String GeminiTextResponse) :
    (get_gemini_text net).2 = 1 ∧
    (∀ r, net 0 = Except.ok r → r.status ≠ 200 → (get_gemini_text net).1 = none) ∧
    (∀ e, net 0 = Except.error e → (get_gemini_text net).1 = none) ∧
    (∀ st poll, st ≠ 201 → get_replicate_image (Except.ok st) poll = (none, 0)) := by
  refine ⟨?_, ?_, ?_, ?_⟩
  · cases hnet : net 0 with
    | error e => simp [get_gemini_text, hnet]
    | ok r =>
      by_cases hs : r.status = 200 <;> simp [get_gemini_text, hnet, hs]
  · intro r hr hs
    simp [get_gemini_text, hr, hs]
  · intro e he
    simp [get_gemini_text, he]
  · intro st poll hst
    simp [get_replicate_image, hst]

/-- Witness for C6 amended at the concrete loading network. -/
theorem C6_amended_no_retry_witness :
    get_gemini_text loadingNet = (none, 1) := by
  have h := C6_amended_no_retry loadingNet
  have h1 := h.2.1 ⟨503, "model is loading", none⟩ rfl (by decide)
  exact Prod.ext h1 h.1

/-- C9: provider clients never raise to their caller: every failure —
a raised exception anywhere in the call (network error, SDK error,
malformed body, missing field), a non-2xx/non-201 status, or a failing
poll — is captured inside the client and returned as the tagged failure
value `none`. -/
theorem C9_never_raises :
    (∀ e, get_gemini_image_sdk (Except.error e) = none) ∧
    (∀ parts, (∀ p ∈ parts, p.inline_data = none) →
      get_gemini_image_sdk (Except.ok parts) = none) ∧
    (∀ e poll, get_replicate_image (Except.error e) poll = (none, 0)) ∧
    (∀ st poll, st ≠ 201 → get_replicate_image (Except.ok st) poll = (none, 0)) ∧
    (∀ poll e, poll 0 = Except.error e →
      get_replicate_image (Except.ok 201) poll = (none, 1)) ∧
    (∀ net e, net 0 = Except.error e → get_gemini_text net = (none, 1)) := by
  refine ⟨fun e => rfl, ?_, fun e poll => rfl, ?_, ?_, ?_⟩
  · intro parts hparts
    induction parts with
    | nil => rfl
    | cons p rest ih =>
      have hp : p.inline_data = none := hparts p (List.mem_cons_self _ _)
      have hrest : ∀ q ∈ rest, q.inline_data = none := by
        intro q hq
        exact hparts q (List.mem_cons_of_mem _ hq)
      simp only [get_gemini_image_sdk, firstInline, hp]
      exact ih hrest
  · intro st poll hst
    simp [get_replicate_image, hst]
  · intro poll e he
    have h20 : (20 : Nat) = 19 + 1 := rfl
    simp only [get_replicate_image, if_neg (by decide : ¬(201 : Nat) ≠ 201)]
    rw [h20]
    simp only [replicatePollLoop, he]
  · intro net e he
    simp [get_gemini_text, he]

/-- Witness for C9 at concrete exceptional inputs. -/
theorem C9_never_raises_witness :
    get_replicate_image (Except.error "connection reset")
      (fun _ => Except.error "unreachable") = (none, 0) ∧
    get_gemini_image_sdk (Except.ok [⟨none⟩, ⟨none⟩]) = none := by
  refine ⟨C9_never_raises.2.2.1 "connection reset" _, ?_⟩
  refine C9_never_raises.2.1 [⟨none⟩, ⟨none⟩] ?_
  intro p hp
  fin_cases hp <;> rfl

/-- C5 counterexample: after 8 handled messages (16 appends) the stored
per-conversation history has 16 entries — it exceeds the claimed cap of
15, because the source never truncates the stored list; only the
read-time slice fed to providers is capped. -/
theorem C5_counterexample :
    (appendedHistory 8).length = 16 ∧ ¬(appendedHistory 8).length ≤ 15 := by
  constructor <;> decide

/-- C5 amended: the stored per-conversation history grows without bound
(each handled message adds exactly two entries), but the context window
actually fed to the text providers — the `[-15:]` slice taken at read
time — never exceeds 15 entries and keeps only the most recent turns
(it is a suffix of the stored history, so the oldest turns are the ones
left out). -/
theorem C5_amended_window (h : List ChatTurn) (u r : String) :
    (recent_context h).length ≤ 15 ∧
    List.IsSuffix (recent_context h) h ∧
    (handle_message_history h u r).length = h.length + 2 := by
  refine ⟨?_, ?_, ?_⟩
  · unfold recent_context
    rw [List.length_drop]
    omega
  · exact List.drop_suffix _ _
  · simp [handle_message_history, history_append]

/-- C7: a continuation signal on an absent or empty delivery queue
sends nothing, changes no state, and repeated signals after exhaustion
are no-ops. -/
theorem C7_empty_continue_noop (st : UserData)
    (h : st.reply_chunks = none ∨ st.reply_chunks = some []) :
    continue_reply st = (st, none) ∧
    ∀ n, (fun s => (continue_reply s).1)^[n] st = st := by
  have hcr : continue_reply st = (st, none) := by
    rcases h with h | h <;> simp [continue_reply, h]
  refine ⟨hcr, ?_⟩
  intro n
  induction n with
  | zero => rfl
  | succ n ih =>
    rw [Function.iterate_succ_apply, hcr]
    exact ih

/-- Witness for C7: three continuation signals on an exhausted queue. -/
theorem C7_empty_continue_noop_witness :
    continue_reply ⟨some []⟩ = (⟨some []⟩, none) ∧
    (fun s => (continue_reply s).1)^[3] ⟨some []⟩ = ⟨some []⟩ := by
  have h := C7_empty_continue_noop ⟨some []⟩ (Or.inr rfl)
  exact ⟨h.1, h.2 3⟩

/-- C8 counterexample: popping the last remaining segment leaves the
`reply_chunks` key present and holding the empty list — the queue is
never deleted from the per-conversation state when it becomes empty. -/
theorem C8_counterexample :
    continue_reply ⟨some ["x"]⟩ = (⟨some []⟩, some "x") ∧
    (continue_reply ⟨some ["x"]⟩).1.reply_chunks ≠ none := by
  exact ⟨rfl, by decide⟩

lemma pythonChunks_length_4000 (s : String) :
    (pythonChunks s 4000).length = (s.length + 3999) / 4000 := by
  have h := rangeStep_length s.length 4000 (by omega) s.length 0 (by omega)
  unfold pythonChunks
  rw [List.length_map, h]
  congr 1

/-- C8 amended: the delivery queue entry is assigned (the tail of the
chunk list) exactly when the formatted reply exceeds the 4000-character
segment limit, is mutated by popping its front segment on each
continuation signal, but is never deleted once empty: after the last
pop the key remains and holds the empty list. -/
theorem C8_amended_queue_lifecycle (st : UserData) (r : String)
    (c : String) (rest : List String) :
    (4000 < r.length →
      handle_message_enqueue st r = ⟨some ((pythonChunks r 4000).drop 1)⟩) ∧
    (r.length ≤ 4000 → handle_message_enqueue st r = st) ∧
    continue_reply ⟨some (c :: rest)⟩ = (⟨some rest⟩, some c) ∧
    (continue_reply ⟨some [c]⟩).1.reply_chunks = some [] := by
  have hlen := pythonChunks_length_4000 r
  refine ⟨?_, ?_, rfl, rfl⟩
  · intro hr
    unfold handle_message_enqueue
    rw [if_pos (by rw [hlen]; omega)]
  · intro hr
    unfold handle_message_enqueue
    rw [if_neg (by rw [hlen]; omega)]

/-- Witness for C8 amended: a short reply leaves the state untouched,
and a continuation pops exactly the front segment. -/
theorem C8_amended_queue_lifecycle_witness :
    handle_message_enqueue ⟨none⟩ "hi" = ⟨none⟩ ∧
    continue_reply ⟨some ["a", "b"]⟩ = (⟨some ["b"]⟩, some "a") := by
  have h := C8_amended_queue_lifecycle ⟨none⟩ "hi" "a" ["b"]
  exact ⟨h.2.1 (by decide), h.2.2.1⟩

lemma boldSubFuel_ne_nil (fuel : Nat) (l : List Char) (h : l ≠ []) :
    boldSubFuel fuel l ≠ [] := by
  cases fuel with
  | zero => exact h
  | succ f =>
    simp only [boldSubFuel]
    cases hfb : findBold l with
    | none => exact h
    | some q => simp

lemma escapeChar_ne_nil (s : List Char) (c : Char) (h : s ≠ []) :
    escapeChar s c ≠ [] := by
  cases s with
  | nil => exact absurd rfl h
  | cons x t =>
    simp only [escapeChar, List.map_cons, List.flatten_cons]
    intro hc
    rcases List.append_eq_nil.mp hc with ⟨h1, _⟩
    by_cases hx : x = c <;> simp [hx] at h1

lemma foldl_escapeChar_ne_nil (cs : List Char) :
    ∀ s : List Char, s ≠ [] → cs.foldl escapeChar s ≠ [] := by
  induction cs with
  | nil => intro s h; exact h
  | cons c t ih =>
    intro s h
    exact ih (escapeChar s c) (escapeChar_ne_nil s c h)

lemma data_ne_nil_of_ne_empty (s : String) (h : s ≠ "") : s.data ≠ [] := by
  intro hd
  apply h
  cases s with
  | mk d =>
    have hd2 : d = [] := hd
    rw [hd2]

lemma format_for_telegram_ne_empty (s : String) (h : s ≠ "") :
    format_for_telegram s ≠ "" := by
  unfold format_for_telegram
  intro hc
  have hdata : special_chars.foldl escapeChar (boldSubFuel s.data.length s.data) = [] := by
    have hcd := congrArg String.data hc
    simpa using hcd
  exact foldl_escapeChar_ne_nil _ _
    (boldSubFuel_ne_nil _ _ (data_ne_nil_of_ne_empty s h)) hdata

lemma generate_laddered_reply_ne_empty (outcomes : List (Option String)) :
    (generate_laddered_reply outcomes).1 ≠ "" := by
  show (ladderRun pyTruthyStr id ladderApology outcomes).1 ≠ ""
  rcases ladderRun_result pyTruthyStr id ladderApology outcomes with h | ⟨v, hv, he⟩
  · rw [h]
    decide
  · rw [he]
    simpa [pyTruthyStr] using hv

lemma pythonChunks_ne_nil (s : String) (size : Nat) (hsz : 0 < size)
    (h : s ≠ "") : pythonChunks s size ≠ [] := by
  unfold pythonChunks
  have hlen : 0 < s.length :=
    List.length_pos.mpr (data_ne_nil_of_ne_empty s h)
  rw [rangeStep_pos _ _ _ hsz hlen]
  simp

/-- C10: `generate_laddered_reply` always returns a non-empty string
(every failure path falls back to the fixed apology message), so the
chunk list `handle_message` computes from the formatted reply is
non-empty and accessing its first element never fails: at least one
reply segment is always sent. -/
theorem C10_reply_always_nonempty (outcomes : List (Option String)) :
    (generate_laddered_reply outcomes).1 ≠ "" ∧
    handle_message_chunks outcomes ≠ [] := by
  refine ⟨generate_laddered_reply_ne_empty outcomes, ?_⟩
  unfold handle_message_chunks
  refine pythonChunks_ne_nil _ 4000 (by omega) ?_
  unfold handle_message_reply
  refine format_for_telegram_ne_empty _ ?_
  by_cases h : (generate_laddered_reply outcomes).1 = ""
  · rw [if_pos h]
    decide
  · rw [if_neg h]
    exact h

end AiBot
